import Mathlib

/-!
Verification of the webpage-extract server's extraction engine.

The source operates on a cheerio-parsed document tree.  The Document
Loader (cheerio.load) is an external collaborator, so extraction
operations are parameterised by a `parse : String → List DNode`
collaborator and the engine itself is embedded faithfully from
`src/tools/tables.ts` (tables + markdown) and the metadata module.
-/

namespace WE

/-! ## String machinery (JS `trim`, `replace(/\s+/g, " ")`, `\n{3,}` collapse) -/

/-- Whitespace test matching the JS `\s` class on the characters that occur
in practice (space, tab, newline, carriage return, vertical tab, form feed). -/
def isWs (c : Char) : Bool :=
  c = ' ' || c = '\t' || c = '\n' || c = '\r' || c = '\x0b' || c = '\x0c'

/-- JS `String.prototype.trim` on a character list. -/
def trimL (l : List Char) : List Char :=
  ((l.dropWhile isWs).reverse.dropWhile isWs).reverse

/-- JS `s.trim()` producing a `String`. -/
def trimS (s : String) : String := ⟨trimL s.data⟩

/-- One step of `replace(/\s+/g, " ")`: `inRun` records whether the
previous character belonged to the whitespace run already replaced. -/
def collapseWsGo (inRun : Bool) : List Char → List Char
  | [] => []
  | c :: rest =>
    if isWs c then
      if inRun then collapseWsGo true rest else ' ' :: collapseWsGo true rest
    else c :: collapseWsGo false rest

/-- Global replacement of every maximal whitespace run by a single space,
modelling `replace(/\s+/g, " ")`. -/
def collapseWsL (l : List Char) : List Char := collapseWsGo false l

/-- Emission of one finished newline run under `replace(/\n{3,}/g, "\n\n")`:
runs of three or more become exactly two newlines, shorter runs stay. -/
def emitNlRun (k : Nat) : List Char :=
  if 3 ≤ k then ['\n', '\n'] else List.replicate k '\n'

/-- One step of `replace(/\n{3,}/g, "\n\n")`: `k` counts the newlines of
the run currently being read. -/
def collapseNlGo (k : Nat) : List Char → List Char
  | [] => emitNlRun k
  | c :: rest =>
    if c = '\n' then collapseNlGo (k + 1) rest
    else emitNlRun k ++ (c :: collapseNlGo 0 rest)

/-- Global replacement of every maximal run of three or more newlines by
exactly two, modelling `replace(/\n{3,}/g, "\n\n")`. -/
def collapseNl (l : List Char) : List Char := collapseNlGo 0 l

/-- One step of splitting on whitespace runs; `cur` is the reversed token
currently being read. -/
def splitWsGo (cur : List Char) : List Char → List (List Char)
  | [] => if cur = [] then [] else [cur.reverse]
  | c :: rest =>
    if isWs c then
      if cur = [] then splitWsGo [] rest else cur.reverse :: splitWsGo [] rest
    else splitWsGo (c :: cur) rest

/-- Tokens of a string split on whitespace runs (empty tokens dropped),
modelling `split(/\s+/).filter(w => w.length > 0)`. -/
def splitWsL (l : List Char) : List (List Char) := splitWsGo [] l

/-- `countWords` from the markdown module: number of nonempty
whitespace-delimited tokens. -/
def countWords (s : String) : Nat := (splitWsL s.data).length

/-- Does `needle` start `hay`? -/
def startsWithL : List Char → List Char → Bool
  | [], _ => true
  | _ :: _, [] => false
  | n :: ns, h :: hs => n = h && startsWithL ns hs

/-- Substring containment of `needle` inside `hay`. -/
def containsSub (hay needle : List Char) : Bool :=
  match hay with
  | [] => startsWithL needle []
  | _ :: rest => startsWithL needle hay || containsSub rest needle

/-- Character-wise lower-casing, modelling JS `toLowerCase` on ASCII. -/
def toLowerL (l : List Char) : List Char := l.map Char.toLower

/-! ## The document tree

cheerio parses an HTML string into a node tree; we embed the parsed tree
directly.  Attributes are an association list (keys unique after parsing,
first binding wins on lookup). -/

/-- A parsed document node: an element with tag, attributes and children,
or a text node. -/
inductive DNode where
  | elem (tag : String) (attrs : List (String × String)) (children : List DNode)
  | text (s : String)

/-- Tag name of a node (text nodes have none). -/
def tagOf : DNode → String
  | .elem t _ _ => t
  | .text _ => ""

/-- Attribute lookup, modelling cheerio `.attr(name)`. -/
def attrOf (n : DNode) (key : String) : Option String :=
  match n with
  | .elem _ attrs _ => (attrs.find? (fun p => p.1 == key)).map (·.2)
  | .text _ => none

/-- Children of a node. -/
def childrenOf : DNode → List DNode
  | .elem _ _ ch => ch
  | .text _ => []

mutual

/-- Text content of one node, modelling cheerio `.text()`. -/
def textContentN : DNode → List Char
  | .text s => s.data
  | .elem _ _ ch => textContentL ch

/-- Concatenated text content of a forest. -/
def textContentL : List DNode → List Char
  | [] => []
  | n :: rest => textContentN n ++ textContentL rest

end

/-- Text content of one node as a `String`. -/
def textOf (n : DNode) : String := ⟨textContentN n⟩

mutual

/-- The element nodes of one node's subtree in document (pre)order. -/
def allElementsN : DNode → List DNode
  | .text _ => []
  | .elem t a ch => .elem t a ch :: allElementsL ch

/-- All element nodes of a forest in document (pre)order, modelling a
global cheerio selection `$(...)`. -/
def allElementsL : List DNode → List DNode
  | [] => []
  | n :: rest => allElementsN n ++ allElementsL rest

end

mutual

/-- The element nodes of one node's subtree in document order, each
paired with its ancestor chain (innermost first); `anc` is the chain
above the node. -/
def collectElemsN (anc : List DNode) : DNode → List (DNode × List DNode)
  | .text _ => []
  | .elem t a ch =>
    (DNode.elem t a ch, anc) :: collectElemsL (DNode.elem t a ch :: anc) ch

/-- All element nodes of a forest in document order with ancestor chains. -/
def collectElemsL (anc : List DNode) : List DNode → List (DNode × List DNode)
  | [] => []
  | n :: rest => collectElemsN anc n ++ collectElemsL anc rest

end

/-! ## Table engine (`src/tools/tables.ts`) -/

/-- `TableData` from `src/types.ts`. -/
structure TableData where
  headers : List String
  rows : List (List String)
  caption : Option String
deriving DecidableEq

/-- `ExtractTablesData` from `src/types.ts`. -/
structure ExtractTablesData where
  tables : List TableData
  count : Nat
deriving DecidableEq

/-- `getCellText`: cell text content, trimmed, whitespace runs collapsed. -/
def getCellText (cell : DNode) : String :=
  ⟨collapseWsL (trimL (textContentN cell))⟩

/-- The `th`/`td` descendant cells of a row, in document order, as cell
texts (`$row.find("td, th")` mapped through `getCellText`). -/
def cellsOf (r : DNode) : List String :=
  ((allElementsL (childrenOf r)).filter
    (fun e => tagOf e == "th" || tagOf e == "td")).map getCellText

/-- Does a row contain a `th` descendant (`firstRow.find("th").length > 0`)? -/
def rowHasTh (r : DNode) : Bool :=
  (allElementsL (childrenOf r)).any (fun e => tagOf e == "th")

/-- Is this element (paired with its ancestor chain) inside a `thead`
(`$row.parents("thead").length > 0`)? -/
def inThead (p : DNode × List DNode) : Bool :=
  p.2.any (fun a => tagOf a == "thead")

/-- All `tr` descendants of the table, in document order, with chains
(`$table.find("tr")`). -/
def tableTrs (t : DNode) (anc : List DNode) : List (DNode × List DNode) :=
  (collectElemsL (t :: anc) (childrenOf t)).filter (fun p => tagOf p.1 == "tr")

/-- Header resolution of `extractTable` (lines 34-63): thead row first,
else a `th`-bearing first row (consumed), else empty headers sized to the
first row.  Returns the headers and the `usedFirstRowAsHeader` flag. -/
def tableHeaders (t : DNode) (anc : List DNode) : List String × Bool :=
  match ((tableTrs t anc).filter inThead).head? with
  | some p => (cellsOf p.1, false)
  | none =>
    match (tableTrs t anc).head? with
    | some fr =>
      if rowHasTh fr.1 then (cellsOf fr.1, true)
      else ((cellsOf fr.1).map (fun _ => ""), false)
    | none => ([], false)

/-- Row extraction of `extractTable` (lines 65-87): all `tr` descendants
after the consumed header row, skipping rows inside a `thead`, one row of
cell texts each, empty rows dropped. -/
def tableRows (t : DNode) (anc : List DNode) (usedFirstRowAsHeader : Bool) :
    List (List String) :=
  ((((tableTrs t anc).drop (if usedFirstRowAsHeader then 1 else 0)).filter
    (fun p => !inThead p)).map (fun p => cellsOf p.1)).filter
    (fun r => r.length > 0)

/-- First `caption` descendant's trimmed text
(`$table.find("caption").first().text().trim() || undefined`). -/
def tableCaption (t : DNode) (anc : List DNode) : Option String :=
  match ((collectElemsL (t :: anc) (childrenOf t)).filter
      (fun p => tagOf p.1 == "caption")).head? with
  | some p => if trimS (textOf p.1) = "" then none else some (trimS (textOf p.1))
  | none => none

/-- Right-pad a list of cell texts with empty strings to width `w`
(the `while (x.length < maxColumns) x.push("")` loops). -/
def padTo (w : Nat) (l : List String) : List String :=
  l ++ List.replicate (w - l.length) ""

/-- `extractTable`: structure one data table, or `none` when it carries no
usable content. -/
def extractTable (t : DNode) (anc : List DNode) : Option TableData :=
  let hb := tableHeaders t anc
  let rows := tableRows t anc hb.2
  if rows.length = 0 && hb.1.all (fun h => h == "") then none
  else
    let maxColumns := rows.foldl (fun m r => max m r.length) hb.1.length
    some ⟨padTo maxColumns hb.1, rows.map (padTo maxColumns), tableCaption t anc⟩

/-- The layout-class deny list of `isLayoutTable`. -/
def layoutClassNames : List String := ["layout", "wrapper", "container", "frame"]

/-- `isLayoutTable`: explicit presentation role, a layout-ish class
substring, or nesting inside more than one other table. -/
def isLayoutTable (t : DNode) (anc : List DNode) : Bool :=
  (match attrOf t "role" with
   | some r => r == "presentation" || r == "none"
   | none => false)
  || layoutClassNames.any
      (fun cls => containsSub (toLowerL ((attrOf t "class").getD "").data) cls.data)
  || decide (1 < anc.countP (fun a => tagOf a == "table"))

/-- The per-document part of `extractTables` (lines 177-206): classify
every table, structure the data tables, report the count and the
zero-tables warning. -/
def extractTablesCore (doc : List DNode) : ExtractTablesData × List String :=
  let tables := ((collectElemsL [] doc).filter
      (fun p => tagOf p.1 == "table")).filterMap
    (fun p => if isLayoutTable p.1 p.2 then none else extractTable p.1 p.2)
  (⟨tables, tables.length⟩,
   if tables.length = 0 then ["No data tables found in the document"] else [])

/-! ## Markdown engine (second half of `src/tools/tables.ts`) -/

/-- `Heading` from `src/types.ts`. -/
structure Heading where
  level : Nat
  text : String
deriving DecidableEq

/-- `ExtractMarkdownData` from `src/types.ts`. -/
structure ExtractMarkdownData where
  markdown : String
  headings : List Heading
  word_count : Nat
deriving DecidableEq

/-- A structural selector as used by the removal and main-content lists:
tag name, class token (`.x`), exact id (`#x`), or exact attribute value
(`[k="v"]`). -/
inductive Sel where
  | tag (t : String)
  | cls (c : String)
  | idIs (i : String)
  | attrEq (k v : String)

/-- Class-token matching: the `class` attribute split on whitespace
contains the token (CSS `.x` semantics). -/
def hasClassToken (e : DNode) (c : String) : Bool :=
  match attrOf e "class" with
  | some s => (splitWsL s.data).any (fun tok => tok == c.data)
  | none => false

/-- Selector matching on one element. -/
def matchesSel : Sel → DNode → Bool
  | .tag t, e => tagOf e == t
  | .cls c, e => hasClassToken e c
  | .idIs i, e => attrOf e "id" == some i
  | .attrEq k v, e => attrOf e k == some v

/-- The `ELEMENTS_TO_REMOVE` deny list (lines 233-285). -/
def ELEMENTS_TO_REMOVE : List Sel :=
  [.tag "script", .tag "style", .tag "noscript", .tag "iframe",
   .tag "nav", .tag "header", .tag "footer", .tag "aside",
   .tag "form", .tag "button", .tag "input", .tag "select", .tag "textarea",
   .cls "nav", .cls "navbar", .cls "navigation", .cls "menu", .cls "sidebar",
   .cls "advertisement", .cls "ad", .cls "ads", .cls "advert",
   .cls "social", .cls "social-share", .cls "share",
   .cls "comments", .cls "comment", .cls "related", .cls "related-posts",
   .cls "footer", .cls "header", .cls "cookie", .cls "popup", .cls "modal",
   .cls "newsletter", .cls "subscribe",
   .idIs "nav", .idIs "navbar", .idIs "navigation", .idIs "menu",
   .idIs "sidebar", .idIs "footer", .idIs "header", .idIs "comments",
   .idIs "ad", .idIs "ads",
   .attrEq "role" "navigation", .attrEq "role" "banner",
   .attrEq "role" "contentinfo", .attrEq "role" "complementary",
   .attrEq "aria-hidden" "true"]

mutual

/-- Removal of one node: matching elements disappear with their subtree,
others keep their pruned children. -/
def pruneN (p : DNode → Bool) : DNode → List DNode
  | .text s => [.text s]
  | .elem t a ch =>
    if p (.elem t a ch) then [] else [.elem t a (pruneL p ch)]

/-- Remove every element matching `p` (with its subtree) from a forest,
modelling `$(selector).remove()`. -/
def pruneL (p : DNode → Bool) : List DNode → List DNode
  | [] => []
  | n :: rest => pruneN p n ++ pruneL p rest

end

/-- The removal loop `for (const selector of ELEMENTS_TO_REMOVE)
$(selector).remove()`. -/
def removeBoilerplate (doc : List DNode) : List DNode :=
  ELEMENTS_TO_REMOVE.foldl (fun d sel => pruneL (matchesSel sel) d) doc

/-- The ordered `mainSelectors` list of `findMainContent` (lines 326-342). -/
def mainSelectors : List Sel :=
  [.tag "main", .tag "article", .attrEq "role" "main",
   .idIs "content", .idIs "main", .idIs "main-content",
   .cls "content", .cls "main", .cls "main-content",
   .cls "post", .cls "article", .cls "entry",
   .cls "entry-content", .cls "post-content", .cls "article-content"]

/-- `findMainContent`: first selector with any match wins, first matching
element in document order; fallback to the document body. -/
def findMainContent (doc : List DNode) : Option DNode :=
  match mainSelectors.findSome?
      (fun sel => ((allElementsL doc).filter (fun e => matchesSel sel e)).head?) with
  | some e => some e
  | none => ((allElementsL doc).filter (fun e => tagOf e == "body")).head?

/-- The tag set selected by `$("h1, h2, h3, h4, h5, h6")`. -/
def isHeadingTag (t : String) : Bool :=
  t == "h1" || t == "h2" || t == "h3" || t == "h4" || t == "h5" || t == "h6"

/-- `parseInt(tagName.charAt(1), 10)` on a heading tag. -/
def headingLevel (t : String) : Nat :=
  match t.data with
  | _ :: c :: _ => c.toNat - '0'.toNat
  | _ => 0

/-- `extractHeadings`: every `h1`-`h6` element with non-empty trimmed
text, in document order. -/
def extractHeadings (doc : List DNode) : List Heading :=
  (allElementsL doc).filterMap (fun e =>
    if isHeadingTag (tagOf e) then
      if trimS (textOf e) = "" then none
      else some ⟨headingLevel (tagOf e), trimS (textOf e)⟩
    else none)

/-- Language tag of a fenced block: `language-xxx` from the class of a
nested `code` element. -/
def fenceLang (ch : List DNode) : List Char :=
  match (allElementsL ch).find? (fun e => tagOf e == "code") with
  | some c =>
    match attrOf c "class" with
    | some cl =>
      match (splitWsL cl.data).find? (fun tok => startsWithL "language-".data tok) with
      | some tok => tok.drop 9
      | none => []
    | none => []
  | none => []

mutual

/-- Modelled from the spec: the Markdown Renderer (spec section 4.3) is
realised in the source by the external Turndown library configured in
`createTurndownService`, which is not part of this repository, so its
rendering rules are modelled from the spec's words: heading level N gives
N `#` characters plus a space and the text, strong and emphasis give
`**text**` and `*text*`, links give the inline `[text](href)` form,
unordered list items give `-` bulleted lines, preformatted blocks give a
fenced code block with a `language-xxx` tag when present, thematic breaks
give `---`, and block elements are separated by blank lines. -/
def renderN : DNode → List Char
  | .text s => s.data
  | .elem t a ch =>
    if isHeadingTag t then
      "\n\n".data ++ List.replicate (headingLevel t) '#' ++
        (' ' :: trimL (textContentL ch)) ++ "\n\n".data
    else if t == "strong" || t == "b" then "**".data ++ renderList ch ++ "**".data
    else if t == "em" || t == "i" then "*".data ++ renderList ch ++ "*".data
    else if t == "a" then
      ('[' :: renderList ch) ++ (']' :: '(' ::
        ((attrOf (.elem t a ch) "href").getD "").data) ++ [')']
    else if t == "li" then "\n- ".data ++ renderList ch
    else if t == "pre" then
      ('\n' :: "```".data) ++ fenceLang ch ++
        ('\n' :: trimL (textContentL ch)) ++ ('\n' :: "```".data) ++ ['\n']
    else if t == "hr" then "\n\n---\n\n".data
    else if t == "p" || t == "div" || t == "ul" || t == "ol" ||
        t == "blockquote" || t == "section" || t == "table" then
      "\n\n".data ++ renderList ch ++ "\n\n".data
    else renderList ch

/-- Rendering of a forest under the modelled renderer. -/
def renderList : List DNode → List Char
  | [] => []
  | n :: rest => renderN n ++ renderList rest

end

/-- `mainContent.html() || ""` piped through the renderer: the inner
content of the selected main element, or the empty string when the
fallback selection is empty. -/
def renderMain : Option DNode → String
  | some e => ⟨renderList (childrenOf e)⟩
  | none => ""

/-- The markdown post-processing (lines 431-435): collapse runs of three
or more newlines to exactly two, then trim. -/
def cleanupMarkdown (s : String) : String := ⟨trimL (collapseNl s.data)⟩

/-- The per-document part of `extractReadableMarkdown` (lines 412-444):
headings are collected before the removal loop runs, then boilerplate is
removed, the main content is selected and rendered, and the word-count
warning is attached. -/
def extractMarkdownCore (doc : List DNode) : ExtractMarkdownData × List String :=
  let headings := extractHeadings doc
  let cleaned := removeBoilerplate doc
  let markdown := cleanupMarkdown (renderMain (findMainContent cleaned))
  let wordCount := countWords markdown
  (⟨markdown, headings, wordCount⟩,
   if wordCount < 50 then
     ["Extracted content is very short. The page may be JavaScript-rendered or have unusual structure."]
   else [])

/-! ## Metadata engine (the metadata module) -/

/-- A parsed JSON value, as produced by the external `JSON.parse`
collaborator for JSON-LD blocks. -/
inductive Json where
  | null
  | bool (b : Bool)
  | num (n : Int)
  | str (s : String)
  | arr (xs : List Json)
  | obj (fields : List (String × Json))

/-- JS property access on a parsed JSON value: objects resolve the last
binding of the key (duplicate keys last-wins in `JSON.parse`); everything
else, arrays included, has no named fields. -/
def jsField : Json → String → Option Json
  | .obj fs, k => ((fs.filter (fun p => p.1 == k)).getLast?).map (·.2)
  | _, _ => none

/-- The JS test `typeof x === "object" && x !== null`: objects and arrays. -/
def isJsObject : Json → Bool
  | .obj _ => true
  | .arr _ => true
  | _ => false

/-- Is this a `<script type="application/ld+json">` element? -/
def isLdScript (e : DNode) : Bool :=
  tagOf e == "script" && attrOf e "type" == some "application/ld+json"

/-- The `each` loop of `extractJsonLd`: skip blocks with falsy content,
keep each successfully parsed block, silently drop parse failures. -/
def extractJsonLdLoop (p : String → Option Json) : List DNode → List Json
  | [] => []
  | el :: rest =>
    if textOf el = "" then extractJsonLdLoop p rest
    else
      match p (textOf el) with
      | some v => v :: extractJsonLdLoop p rest
      | none => extractJsonLdLoop p rest

/-- `extractJsonLd`, parameterised by the external `JSON.parse`
collaborator `p` (`none` models a parse exception). -/
def extractJsonLd (p : String → Option Json) (doc : List DNode) : List Json :=
  extractJsonLdLoop p ((allElementsL doc).filter isLdScript)

/-- JS `a || b` on possibly-absent strings: the empty string is falsy. -/
def jsOr (a b : Option String) : Option String :=
  match a with
  | some s => if s = "" then b else some s
  | none => b

/-- `extractMetaTags`: every `meta` keyed by `name` else `property` else
`itemprop`, value `content`, kept as an ordered list (JS object later-wins
is realized by `tagLookup`). -/
def extractMetaTagsList (doc : List DNode) : List (String × String) :=
  ((allElementsL doc).filter (fun e => tagOf e == "meta")).filterMap (fun e =>
    match jsOr (attrOf e "name")
        (jsOr (attrOf e "property") (jsOr (attrOf e "itemprop") none)),
        attrOf e "content" with
    | some k, some c => if c = "" then none else some (k, c)
    | _, _ => none)

/-- JS object read `tags[k]` over the ordered pair list: last binding wins. -/
def tagLookup (tags : List (String × String)) (k : String) : Option String :=
  ((tags.filter (fun p => p.1 == k)).getLast?).map (·.2)

/-- The truthiness-guarded read `if (metaTags[k]) ...`. -/
def jsGetTag (tags : List (String × String)) (k : String) : Option String :=
  match tagLookup tags k with
  | some v => if v = "" then none else some v
  | none => none

/-- Text of the first element matching `p`, or the empty string
(`$(sel).first().text()` on a possibly-empty selection). -/
def firstText (doc : List DNode) (p : DNode → Bool) : String :=
  match ((allElementsL doc).filter p).head? with
  | some e => textOf e
  | none => ""

/-- `$(sel).attr(k)`: attribute `k` of the first element matching `p`. -/
def firstAttrVal (doc : List DNode) (p : DNode → Bool) (k : String) : Option String :=
  (((allElementsL doc).filter p).head?).bind (fun e => attrOf e k)

/-- The JSON-LD `for` loop of `extractAuthor` (lines 94-116): per block,
an `author` string, else the `name` of an `author` object, else a
`creator` string; the first hit in any block returns immediately. -/
def extractAuthorLoop : List Json → Option String
  | [] => none
  | data :: rest =>
    if isJsObject data then
      match jsField data "author" with
      | some (.str s) => some s
      | some a =>
        if isJsObject a then
          match jsField a "name" with
          | some (.str n) => some n
          | _ =>
            match jsField data "creator" with
            | some (.str c) => some c
            | _ => extractAuthorLoop rest
        else
          match jsField data "creator" with
          | some (.str c) => some c
          | _ => extractAuthorLoop rest
      | none =>
        match jsField data "creator" with
        | some (.str c) => some c
        | _ => extractAuthorLoop rest
    else extractAuthorLoop rest

/-- `extractAuthor`: meta `author`, else meta `article:author`, else the
JSON-LD loop, else the first `a[rel="author"]` link text. -/
def extractAuthor (doc : List DNode) (metaTags : List (String × String))
    (jsonLd : List Json) : Option String :=
  match jsGetTag metaTags "author" with
  | some v => some v
  | none =>
    match jsGetTag metaTags "article:author" with
    | some v => some v
    | none =>
      match extractAuthorLoop jsonLd with
      | some v => some v
      | none =>
        if trimS (firstText doc
            (fun e => tagOf e == "a" && attrOf e "rel" == some "author")) = ""
        then none
        else some (trimS (firstText doc
            (fun e => tagOf e == "a" && attrOf e "rel" == some "author")))

/-- The fixed meta-tag order of `extractPublishDate`. -/
def dateMetaTags : List String :=
  ["article:published_time", "datePublished", "date", "pubdate", "DC.date.issued"]

/-- The meta-tag loop of `extractPublishDate`. -/
def dateFromMetaLoop (metaTags : List (String × String)) : List String → Option String
  | [] => none
  | k :: rest =>
    match jsGetTag metaTags k with
    | some v => some v
    | none => dateFromMetaLoop metaTags rest

/-- The JSON-LD loop of `extractPublishDate`: per block `datePublished`
string, else `dateCreated` string. -/
def dateFromJsonLdLoop : List Json → Option String
  | [] => none
  | data :: rest =>
    if isJsObject data then
      match jsField data "datePublished" with
      | some (.str s) => some s
      | _ =>
        match jsField data "dateCreated" with
        | some (.str s) => some s
        | _ => dateFromJsonLdLoop rest
    else dateFromJsonLdLoop rest

/-- `extractPublishDate`: meta tags in fixed order, else JSON-LD, else the
first `time[datetime]` attribute. -/
def extractPublishDate (doc : List DNode) (metaTags : List (String × String))
    (jsonLd : List Json) : Option String :=
  match dateFromMetaLoop metaTags dateMetaTags with
  | some v => some v
  | none =>
    match dateFromJsonLdLoop jsonLd with
    | some v => some v
    | none =>
      match ((allElementsL doc).filter
          (fun e => tagOf e == "time" && (attrOf e "datetime").isSome)).head? with
      | some e =>
        match attrOf e "datetime" with
        | some d => if d = "" then none else some d
        | none => none
      | none => none

/-- `extractOpenGraph`: every `meta[property^="og:"]` with truthy property
and content, key with the `og:` prefix removed, kept as an ordered list. -/
def extractOpenGraph (doc : List DNode) : List (String × String) :=
  ((allElementsL doc).filter (fun e => tagOf e == "meta" &&
      (match attrOf e "property" with
       | some p => startsWithL "og:".data p.data
       | none => false))).filterMap (fun e =>
    match attrOf e "property", attrOf e "content" with
    | some p, some c => if p = "" ∨ c = "" then none else some (⟨p.data.drop 3⟩, c)
    | _, _ => none)

/-- `ExtractMetadataData` from `src/types.ts` (mappings kept as ordered
pair lists, JS object reads resolved by `tagLookup`). -/
structure ExtractMetadataData where
  title : Option String
  description : Option String
  canonical_url : Option String
  author : Option String
  publish_date : Option String
  open_graph : List (String × String)
  json_ld : List Json
  meta_tags : List (String × String)

/-- The per-document part of `extractMetadata` (lines 202-265),
parameterised by the `JSON.parse` collaborator `pj` and the fetch-derived
`source`. -/
def extractMetadataCore (pj : String → Option Json) (source : Option String)
    (doc : List DNode) : ExtractMetadataData × List String :=
  let titleTxt := trimS (firstText doc (fun e => tagOf e == "title"))
  let title := if titleTxt = "" then
      jsOr (firstAttrVal doc
        (fun e => tagOf e == "meta" && attrOf e "property" == some "og:title")
        "content") none
    else some titleTxt
  let description := jsOr (firstAttrVal doc
      (fun e => tagOf e == "meta" && attrOf e "name" == some "description")
      "content")
    (jsOr (firstAttrVal doc
      (fun e => tagOf e == "meta" && attrOf e "property" == some "og:description")
      "content") none)
  let canonicalUrl := jsOr (firstAttrVal doc
      (fun e => tagOf e == "link" && attrOf e "rel" == some "canonical") "href")
    (jsOr (firstAttrVal doc
      (fun e => tagOf e == "meta" && attrOf e "property" == some "og:url")
      "content") (jsOr source none))
  let openGraph := extractOpenGraph doc
  let jsonLd := extractJsonLd pj doc
  let metaTags := extractMetaTagsList doc
  let author := extractAuthor doc metaTags jsonLd
  let publishDate := extractPublishDate doc metaTags jsonLd
  let warnings :=
    (if title = none then ["No title found in the document"] else []) ++
    (if description = none then ["No description found in the document"] else []) ++
    (if openGraph = [] then ["No Open Graph metadata found"] else [])
  (⟨title, description, canonicalUrl, author, publishDate,
    openGraph, jsonLd, metaTags⟩, warnings)

/-! ## Response envelope and operation entry points -/

/-- Error codes from `src/types.ts`. -/
inductive ErrCode where
  | INVALID_INPUT
  | UPSTREAM_ERROR
  | RATE_LIMITED
  | TIMEOUT
  | PARSE_ERROR
  | INTERNAL_ERROR
deriving DecidableEq

/-- Success-response metadata (`ResponseMeta`); `pagination` is the
constant `{next_cursor: null}` and is omitted. -/
structure RMeta where
  source : Option String
  retrieved_at : String
  warnings : List String
deriving DecidableEq

/-- The uniform response envelope from `src/types.ts`. -/
inductive Resp (α : Type) where
  | ok (data : α) (meta : RMeta)
  | err (code : ErrCode) (message : String) (retrieved_at : String)

/-- Outcome of the external fetch collaborator for a URL input. -/
inductive FetchRes where
  | ok (html : String)
  | fail (code : ErrCode) (message : String)

/-- `isUrl` from `src/tools/fetch.ts`. -/
def isUrl (s : String) : Bool :=
  startsWithL "http://".data s.data || startsWithL "https://".data s.data

/-- `fetchHtmlOrUseProvided`: fetch when the input is a URL, else use the
input as raw HTML. -/
def fetchHtmlOrUseProvided (fetchF : String → FetchRes) (s : String) :
    Except (ErrCode × String) (String × Option String) :=
  if isUrl s then
    match fetchF s with
    | .ok h => .ok (h, some s)
    | .fail c m => .error (c, m)
  else .ok (s, none)

/-- The `extract_tables` operation, parameterised by the document-loader
collaborator `parse`, the fetch collaborator `fetchF` and the clock
reading `now`. -/
def extractTables (parse : String → List DNode) (fetchF : String → FetchRes)
    (now : String) (html_or_url : String) : Resp ExtractTablesData :=
  if html_or_url = "" then
    .err .INVALID_INPUT "html_or_url is required and must be a string" now
  else
    match fetchHtmlOrUseProvided fetchF html_or_url with
    | .error (c, m) => .err c m now
    | .ok (html, source) =>
      if trimS html = "" then
        .err .INVALID_INPUT "Empty HTML content provided" now
      else
        .ok (extractTablesCore (parse html)).1
          ⟨source, now, (extractTablesCore (parse html)).2⟩

/-- The `extract_readable_markdown` operation. -/
def extractReadableMarkdown (parse : String → List DNode)
    (fetchF : String → FetchRes) (now : String) (html_or_url : String) :
    Resp ExtractMarkdownData :=
  if html_or_url = "" then
    .err .INVALID_INPUT "html_or_url is required and must be a string" now
  else
    match fetchHtmlOrUseProvided fetchF html_or_url with
    | .error (c, m) => .err c m now
    | .ok (html, source) =>
      if trimS html = "" then
        .err .INVALID_INPUT "Empty HTML content provided" now
      else
        .ok (extractMarkdownCore (parse html)).1
          ⟨source, now, (extractMarkdownCore (parse html)).2⟩

/-- The `extract_metadata` operation, additionally parameterised by the
`JSON.parse` collaborator `pj`. -/
def extractMetadata (parse : String → List DNode) (pj : String → Option Json)
    (fetchF : String → FetchRes) (now : String) (html_or_url : String) :
    Resp ExtractMetadataData :=
  if html_or_url = "" then
    .err .INVALID_INPUT "html_or_url is required and must be a string" now
  else
    match fetchHtmlOrUseProvided fetchF html_or_url with
    | .error (c, m) => .err c m now
    | .ok (html, source) =>
      if trimS html = "" then
        .err .INVALID_INPUT "Empty HTML content provided" now
      else
        .ok (extractMetadataCore pj source (parse html)).1
          ⟨source, now, (extractMetadataCore pj source (parse html)).2⟩

/-- Erase the clock reading from a response, leaving everything the spec
says may not vary between identical calls. -/
def stripTime {α : Type} : Resp α → Resp α
  | .ok d m => .ok d ⟨m.source, "", m.warnings⟩
  | .err c msg _ => .err c msg ""

/-- Success test on a response. -/
def isOk {α : Type} : Resp α → Bool
  | .ok _ _ => true
  | .err _ _ _ => false

/-! ## Concrete example documents used by the claims -/

/-- The spec scenario table
`<table><tr><th>Name</th></tr><tr><td>Ann</td></tr></table>`. -/
def scenarioTable : DNode :=
  .elem "table" []
    [.elem "tr" [] [.elem "th" [] [.text "Name"]],
     .elem "tr" [] [.elem "td" [] [.text "Ann"]]]

/-- A `role="presentation"` table carrying cell content. -/
def presentationTable : DNode :=
  .elem "table" [("role", "presentation")]
    [.elem "tr" [] [.elem "td" [] [.text "X"]]]

/-- The C2 scenario document: one presentation table plus one data table. -/
def c2Doc : List DNode :=
  [.elem "html" [] [.elem "body" [] [presentationTable, scenarioTable]]]

/-- The C3 asymmetry document: a heading inside a `nav` that the
boilerplate filter removes, next to real main content. -/
def c3Doc : List DNode :=
  [.elem "html" [] [.elem "body" []
    [.elem "nav" [] [.elem "h1" [] [.text "Hidden"]],
     .elem "main" [] [.elem "p" [] [.text "Y"]]]]]

/-- The C4 document: no selector of `mainSelectors` matches, but the `div`
id contains `content` as a substring. -/
def c4Doc : List DNode :=
  [.elem "html" [] [.elem "body" []
    [.elem "div" [("id", "page-content-area")] [.text "A"],
     .elem "span" [] [.text "B"]]]]

/-- A document whose main content is marked by `role="main"` only. -/
def c4WitnessDoc : List DNode :=
  [.elem "html" [] [.elem "body" []
    [.elem "div" [("role", "main")] [.text "M"]]]]

/-- The C5 JSON-LD blocks: an earlier creator-only block and a later
author-bearing block. -/
def c5JsonLd : List Json :=
  [Json.obj [("creator", Json.str "Carol")],
   Json.obj [("author", Json.str "Alice")]]

/-! ## Helper lemmas -/

theorem padTo_length {l : List String} {w : Nat} (h : l.length ≤ w) :
    (padTo w l).length = w := by
  simp only [padTo, List.length_append, List.length_replicate]
  omega

theorem le_foldl_max {α : Type} (f : α → Nat) :
    ∀ (l : List α) (b : Nat), b ≤ l.foldl (fun m x => max m (f x)) b := by
  intro l
  induction l with
  | nil => intro b; simp
  | cons x xs ih =>
    intro b
    calc b ≤ max b (f x) := Nat.le_max_left _ _
      _ ≤ xs.foldl (fun m y => max m (f y)) (max b (f x)) := ih _
      _ = (x :: xs).foldl (fun m y => max m (f y)) b := by simp [List.foldl_cons]

theorem mem_le_foldl_max {α : Type} (f : α → Nat) :
    ∀ (l : List α) (b : Nat) (x : α), x ∈ l →
      f x ≤ l.foldl (fun m y => max m (f y)) b := by
  intro l
  induction l with
  | nil => intro b x hx; cases hx
  | cons y ys ih =>
    intro b x hx
    rcases List.mem_cons.mp hx with rfl | hmem
    · calc f x ≤ max b (f x) := Nat.le_max_right _ _
        _ ≤ ys.foldl (fun m z => max m (f z)) (max b (f x)) := le_foldl_max f ys _
        _ = (x :: ys).foldl (fun m z => max m (f z)) b := by simp [List.foldl_cons]
    · calc f x ≤ ys.foldl (fun m z => max m (f z)) (max b (f y)) := ih _ x hmem
        _ = (y :: ys).foldl (fun m z => max m (f z)) b := by simp [List.foldl_cons]

/-! ## Claim theorems -/

/-- Per-response checker for C10: count equals the number of tables. -/
def countMatches : Resp ExtractTablesData → Bool
  | .ok d _ => d.count == d.tables.length
  | .err _ _ _ => true

/-- C10: in every successful extract_tables response, the count field
equals the number of elements of the tables array. -/
theorem c10_count_matches_tables :
    ∀ (parse : String → List DNode) (fetchF : String → FetchRes)
      (now input : String),
      countMatches (extractTables parse fetchF now input) = true := by
  intro parse fetchF now input
  unfold extractTables
  split
  · rfl
  · split
    · rfl
    · split
      · rfl
      · simp [countMatches, extractTablesCore]

/-- C8: an empty-string input to any markup-based operation yields the
INVALID_INPUT failure envelope immediately, for every collaborator: no
parse, no fetch, no retry. -/
theorem c8_empty_input_invalid :
    ∀ (parse : String → List DNode) (pj : String → Option Json)
      (fetchF : String → FetchRes) (now : String),
      extractReadableMarkdown parse fetchF now "" =
        .err .INVALID_INPUT "html_or_url is required and must be a string" now ∧
      extractTables parse fetchF now "" =
        .err .INVALID_INPUT "html_or_url is required and must be a string" now ∧
      extractMetadata parse pj fetchF now "" =
        .err .INVALID_INPUT "html_or_url is required and must be a string" now := by
  intro parse pj fetchF now
  exact ⟨rfl, rfl, rfl⟩

/-- C2: a table whose role attribute is presentation or none is always
classified as a layout table, and on the scenario document with one
presentation table and one plain data table the reported count is 1. -/
theorem c2_presentation_tables_excluded :
    (∀ (t : DNode) (anc : List DNode),
      attrOf t "role" = some "presentation" ∨ attrOf t "role" = some "none" →
      isLayoutTable t anc = true) ∧
    (extractTablesCore c2Doc).1.count = 1 := by
  constructor
  · intro t anc h
    rcases h with h | h <;> simp [isLayoutTable, h]
  · decide

/-- Witness for C2 at the concrete presentation table. -/
theorem c2_presentation_tables_excluded_witness :
    isLayoutTable presentationTable [] = true :=
  c2_presentation_tables_excluded.1 presentationTable [] (Or.inl rfl)

/-- C9: with the clock as the only varying input, re-running any
extraction on identical raw-HTML input yields identical responses apart
from `meta.retrieved_at`. -/
theorem c9_extraction_deterministic :
    ∀ (parse : String → List DNode) (pj : String → Option Json)
      (fetchF : String → FetchRes) (now now' input : String),
      isUrl input = false →
      stripTime (extractTables parse fetchF now input) =
        stripTime (extractTables parse fetchF now' input) ∧
      stripTime (extractReadableMarkdown parse fetchF now input) =
        stripTime (extractReadableMarkdown parse fetchF now' input) ∧
      stripTime (extractMetadata parse pj fetchF now input) =
        stripTime (extractMetadata parse pj fetchF now' input) := by
  intro parse pj fetchF now now' input h
  refine ⟨?_, ?_, ?_⟩
  · unfold extractTables fetchHtmlOrUseProvided
    rw [h]
    by_cases h1 : input = ""
    · simp [h1, stripTime]
    · by_cases h2 : trimS input = "" <;> simp [h1, h2, stripTime]
  · unfold extractReadableMarkdown fetchHtmlOrUseProvided
    rw [h]
    by_cases h1 : input = ""
    · simp [h1, stripTime]
    · by_cases h2 : trimS input = "" <;> simp [h1, h2, stripTime]
  · unfold extractMetadata fetchHtmlOrUseProvided
    rw [h]
    by_cases h1 : input = ""
    · simp [h1, stripTime]
    · by_cases h2 : trimS input = "" <;> simp [h1, h2, stripTime]

/-- Witness for C9 at a concrete raw-HTML input and two clock readings. -/
theorem c9_extraction_deterministic_witness :
    stripTime (extractTables (fun _ => c2Doc) (fun _ => .fail .TIMEOUT "t") "t1" "<p>hi</p>") =
      stripTime (extractTables (fun _ => c2Doc) (fun _ => .fail .TIMEOUT "t") "t2" "<p>hi</p>") ∧
    stripTime (extractReadableMarkdown (fun _ => c2Doc) (fun _ => .fail .TIMEOUT "t") "t1" "<p>hi</p>") =
      stripTime (extractReadableMarkdown (fun _ => c2Doc) (fun _ => .fail .TIMEOUT "t") "t2" "<p>hi</p>") ∧
    stripTime (extractMetadata (fun _ => c2Doc) (fun _ => none) (fun _ => .fail .TIMEOUT "t") "t1" "<p>hi</p>") =
      stripTime (extractMetadata (fun _ => c2Doc) (fun _ => none) (fun _ => .fail .TIMEOUT "t") "t2" "<p>hi</p>") :=
  c9_extraction_deterministic (fun _ => c2Doc) (fun _ => none)
    (fun _ => .fail .TIMEOUT "t") "t1" "t2" "<p>hi</p>" (by decide)

/-- The `maxColumns` computation of `extractTable`:
`Math.max(headers.length, ...rows.map(row => row.length))`. -/
def tableWidth (t : DNode) (anc : List DNode) : Nat :=
  (tableRows t anc (tableHeaders t anc).2).foldl
    (fun m row => max m row.length) (tableHeaders t anc).1.length

theorem extractTable_some_eq {t : DNode} {anc : List DNode} {r : TableData}
    (h : extractTable t anc = some r) :
    r = ⟨padTo (tableWidth t anc) (tableHeaders t anc).1,
         (tableRows t anc (tableHeaders t anc).2).map (padTo (tableWidth t anc)),
         tableCaption t anc⟩ := by
  simp only [extractTable] at h
  split at h
  · cases h
  · exact (Option.some.inj h).symm

theorem extractTable_rows_all_padded {t : DNode} {anc : List DNode}
    {r : TableData} (h : extractTable t anc = some r) :
    ∀ row ∈ r.rows, row.length = r.headers.length := by
  have he := extractTable_some_eq h
  subst he
  intro row hrow
  simp only [List.mem_map] at hrow
  obtain ⟨r0, hr0, rfl⟩ := hrow
  have h1 : r0.length ≤ tableWidth t anc := by
    unfold tableWidth
    exact mem_le_foldl_max List.length _ _ _ hr0
  have h2 : (tableHeaders t anc).1.length ≤ tableWidth t anc := by
    unfold tableWidth
    exact le_foldl_max List.length _ _
  simp only [padTo_length h1, padTo_length h2]

/-- C1 per-payload checker: every row is exactly as wide as the headers. -/
def rowsPadded (d : ExtractTablesData) : Bool :=
  d.tables.all (fun rec => rec.rows.all (fun row => row.length == rec.headers.length))

/-- C1 per-response checker: trivially true on failures. -/
def respRowsPadded : Resp ExtractTablesData → Bool
  | .ok d _ => rowsPadded d
  | .err _ _ _ => true

theorem rowsPadded_core (doc : List DNode) :
    rowsPadded (extractTablesCore doc).1 = true := by
  simp only [rowsPadded, List.all_eq_true]
  intro rec hrec
  simp only [List.all_eq_true, beq_iff_eq]
  intro row hrow
  simp only [extractTablesCore, List.mem_filterMap] at hrec
  obtain ⟨p, _, hf⟩ := hrec
  by_cases hl : isLayoutTable p.1 p.2
  · rw [if_pos hl] at hf; cases hf
  · rw [if_neg hl] at hf
    exact extractTable_rows_all_padded hf row hrow

/-- C1: every table record in every successful extract_tables response has
all rows exactly as long as its headers, and every emitted record is the
raw headers and rows right-padded with empty strings to the common width
`W = max(len(headers), max over rows of len(row))`. -/
theorem c1_padding_invariant :
    (∀ (parse : String → List DNode) (fetchF : String → FetchRes)
      (now input : String),
      respRowsPadded (extractTables parse fetchF now input) = true) ∧
    (∀ (t : DNode) (anc : List DNode) (r : TableData),
      extractTable t anc = some r →
      r.headers = padTo (tableWidth t anc) (tableHeaders t anc).1 ∧
      r.rows = (tableRows t anc (tableHeaders t anc).2).map
        (padTo (tableWidth t anc))) := by
  constructor
  · intro parse fetchF now input
    unfold extractTables
    split
    · rfl
    · split
      · rfl
      · split
        · rfl
        · exact rowsPadded_core _
  · intro t anc r h
    have he := extractTable_some_eq h
    subst he
    exact ⟨rfl, rfl⟩

/-- Witness for C1 at the spec scenario table. -/
theorem c1_padding_invariant_witness :
    (⟨["Name"], [["Ann"]], none⟩ : TableData).headers =
      padTo (tableWidth scenarioTable []) (tableHeaders scenarioTable []).1 ∧
    (⟨["Name"], [["Ann"]], none⟩ : TableData).rows =
      (tableRows scenarioTable [] (tableHeaders scenarioTable []).2).map
        (padTo (tableWidth scenarioTable [])) :=
  c1_padding_invariant.2 scenarioTable [] ⟨["Name"], [["Ann"]], none⟩ rfl

/-- The nonempty contents of the document's JSON-LD script blocks, in
document order. -/
def ldScriptContents (doc : List DNode) : List String :=
  (((allElementsL doc).filter isLdScript).map textOf).filter (fun c => c != "")

theorem extractJsonLdLoop_eq (p : String → Option Json) :
    ∀ els, extractJsonLdLoop p els =
      ((els.map textOf).filter (fun c => c != "")).filterMap p := by
  intro els
  induction els with
  | nil => rfl
  | cons el rest ih =>
    simp only [extractJsonLdLoop, List.map_cons, List.filter_cons]
    by_cases h : textOf el = ""
    · simp [h, ih]
    · rw [if_neg h]
      have hb : (textOf el != "") = true := by simp [h]
      rw [hb]
      simp only [List.filterMap_cons]
      cases hp : p (textOf el) <;> simp [hp, ih]

/-- C7: the JSON-LD records are exactly the successfully parsed nonempty
script blocks in document order (parse failures never materialize a
record), the metadata warnings do not depend on the JSON parser at all,
and the operation succeeds whatever the parser does. -/
theorem c7_invalid_jsonld_dropped_silently :
    (∀ (p : String → Option Json) (doc : List DNode),
      extractJsonLd p doc = (ldScriptContents doc).filterMap p) ∧
    (∀ (p q : String → Option Json) (source : Option String) (doc : List DNode),
      (extractMetadataCore p source doc).2 = (extractMetadataCore q source doc).2) ∧
    (∀ (parse : String → List DNode) (p : String → Option Json)
      (fetchF : String → FetchRes) (now input : String),
      isUrl input = false → input ≠ "" → trimS input ≠ "" →
      isOk (extractMetadata parse p fetchF now input) = true) := by
  refine ⟨?_, ?_, ?_⟩
  · intro p doc
    exact extractJsonLdLoop_eq p _
  · intro p q source doc
    rfl
  · intro parse p fetchF now input h1 h2 h3
    unfold extractMetadata fetchHtmlOrUseProvided
    rw [h1]
    simp [h2, h3, isOk]

/-- Witness for C7 at a concrete raw-HTML input. -/
theorem c7_invalid_jsonld_dropped_silently_witness :
    isOk (extractMetadata (fun _ => c2Doc) (fun _ => none)
      (fun _ => .fail .TIMEOUT "t") "t1" "<p>hi</p>") = true :=
  c7_invalid_jsonld_dropped_silently.2.2 (fun _ => c2Doc) (fun _ => none)
    (fun _ => .fail .TIMEOUT "t") "t1" "<p>hi</p>"
    (by decide) (by decide) (by decide)

theorem emitNlRun_cases (k : Nat) :
    emitNlRun k = [] ∨ emitNlRun k = ['\n'] ∨ emitNlRun k = ['\n', '\n'] := by
  by_cases h : 3 ≤ k
  · rw [emitNlRun, if_pos h]
    exact Or.inr (Or.inr rfl)
  · rw [emitNlRun, if_neg h]
    rcases k with _ | _ | _ | n
    · exact Or.inl rfl
    · exact Or.inr (Or.inl rfl)
    · exact Or.inr (Or.inr rfl)
    · omega

theorem not_triple_infix_cons {c : Char} (hc : c ≠ '\n') {T : List Char}
    (hT : ¬ ['\n', '\n', '\n'] <:+: T) : ¬ ['\n', '\n', '\n'] <:+: c :: T := by
  intro hinf
  rcases List.infix_cons_iff.mp hinf with hp | hi
  · exact hc ((List.cons_prefix_cons.mp hp).1).symm
  · exact hT hi

theorem not_triple_infix_one_nl {c : Char} (hc : c ≠ '\n') {T : List Char}
    (hT : ¬ ['\n', '\n', '\n'] <:+: T) :
    ¬ ['\n', '\n', '\n'] <:+: '\n' :: c :: T := by
  intro hinf
  rcases List.infix_cons_iff.mp hinf with hp | hi
  · have h2 := (List.cons_prefix_cons.mp hp).2
    exact hc ((List.cons_prefix_cons.mp h2).1).symm
  · exact not_triple_infix_cons hc hT hi

theorem not_triple_infix_two_nl {c : Char} (hc : c ≠ '\n') {T : List Char}
    (hT : ¬ ['\n', '\n', '\n'] <:+: T) :
    ¬ ['\n', '\n', '\n'] <:+: '\n' :: '\n' :: c :: T := by
  intro hinf
  rcases List.infix_cons_iff.mp hinf with hp | hi
  · have h2 := (List.cons_prefix_cons.mp hp).2
    have h3 := (List.cons_prefix_cons.mp h2).2
    exact hc ((List.cons_prefix_cons.mp h3).1).symm
  · exact not_triple_infix_one_nl hc hT hi

theorem collapseNlGo_no_triple :
    ∀ (l : List Char) (k : Nat), ¬ ['\n', '\n', '\n'] <:+: collapseNlGo k l := by
  intro l
  induction l with
  | nil =>
    intro k hinf
    have hlen := hinf.length_le
    rcases emitNlRun_cases k with h | h | h <;>
      · simp only [collapseNlGo, h] at hlen
        simp at hlen
  | cons c rest ih =>
    intro k
    by_cases hc : c = '\n'
    · subst hc
      exact ih (k + 1)
    · have heq : collapseNlGo k (c :: rest) =
          emitNlRun k ++ (c :: collapseNlGo 0 rest) := by
        simp only [collapseNlGo, if_neg hc]
      rw [heq]
      rcases emitNlRun_cases k with h | h | h <;> rw [h]
      · exact not_triple_infix_cons hc (ih 0)
      · exact not_triple_infix_one_nl hc (ih 0)
      · exact not_triple_infix_two_nl hc (ih 0)

theorem trimL_within (l : List Char) : trimL l <:+: l := by
  have h1 : l.dropWhile isWs <:+ l := List.dropWhile_suffix isWs
  have h2 : (l.dropWhile isWs).reverse.dropWhile isWs <:+
      (l.dropWhile isWs).reverse := List.dropWhile_suffix isWs
  have h3 : ((l.dropWhile isWs).reverse.dropWhile isWs).reverse <+:
      l.dropWhile isWs := by
    rw [← List.reverse_suffix]
    simpa using h2
  exact h3.isInfix.trans h1.isInfix

theorem cleanupMarkdown_no_triple (s : String) :
    ¬ ['\n', '\n', '\n'] <:+: (cleanupMarkdown s).data := by
  intro h
  exact collapseNlGo_no_triple s.data 0 (h.trans (trimL_within _))

/-- The markdown payload of a response ("" on failures). -/
def mdOf : Resp ExtractMarkdownData → String
  | .ok d _ => d.markdown
  | .err _ _ _ => ""

/-- Does a character list contain three consecutive newlines? -/
def hasTripleNl (l : List Char) : Bool := decide (['\n', '\n', '\n'] <:+: l)

/-- C6: the markdown of every extract_readable_markdown response contains
no run of three or more consecutive newline characters. -/
theorem c6_no_triple_newlines :
    ∀ (parse : String → List DNode) (fetchF : String → FetchRes)
      (now input : String),
      hasTripleNl (mdOf (extractReadableMarkdown parse fetchF now input)).data =
        false := by
  intro parse fetchF now input
  rw [hasTripleNl, decide_eq_false_iff_not]
  unfold extractReadableMarkdown
  split
  · intro h
    have := h.length_le
    simp [mdOf] at this
  · split
    · intro h
      have := h.length_le
      simp [mdOf] at this
    · split
      · intro h
        have := h.length_le
        simp [mdOf] at this
      · intro h
        exact cleanupMarkdown_no_triple _ h

/-- C3: headings of the markdown view are exactly those collected from the
pre-filter tree, every heading has level between 1 and 6 and non-empty
trimmed text, and on the concrete asymmetry document a heading inside a
removed `nav` still appears in `headings` while its text is absent from
the rendered markdown. -/
theorem c3_headings_pre_filter :
    (∀ doc : List DNode, (extractMarkdownCore doc).1.headings = extractHeadings doc) ∧
    (∀ (doc : List DNode) (h : Heading), h ∈ extractHeadings doc →
      (1 ≤ h.level ∧ h.level ≤ 6) ∧ h.text ≠ "") ∧
    ((extractMarkdownCore c3Doc).1.headings = [⟨1, "Hidden"⟩] ∧
     (extractMarkdownCore c3Doc).1.markdown = "Y" ∧
     containsSub (extractMarkdownCore c3Doc).1.markdown.data "Hidden".data = false) := by
  refine ⟨fun doc => rfl, ?_, by decide⟩
  intro doc h hmem
  simp only [extractHeadings, List.mem_filterMap] at hmem
  obtain ⟨e, _, hf⟩ := hmem
  by_cases h1 : isHeadingTag (tagOf e) = true
  · rw [if_pos h1] at hf
    by_cases h2 : trimS (textOf e) = ""
    · rw [if_pos h2] at hf; cases hf
    · rw [if_neg h2] at hf
      have he := Option.some.inj hf
      subst he
      have hb : 1 ≤ headingLevel (tagOf e) ∧ headingLevel (tagOf e) ≤ 6 := by
        simp only [isHeadingTag, Bool.or_eq_true, beq_iff_eq] at h1
        rcases h1 with ((((h1 | h1) | h1) | h1) | h1) | h1 <;> rw [h1] <;>
          exact ⟨by decide, by decide⟩
      exact ⟨hb, h2⟩
  · rw [if_neg h1] at hf; cases hf

/-- Witness for C3 at the concrete heading of the asymmetry document. -/
theorem c3_headings_pre_filter_witness :
    (1 ≤ (⟨1, "Hidden"⟩ : Heading).level ∧ (⟨1, "Hidden"⟩ : Heading).level ≤ 6) ∧
    (⟨1, "Hidden"⟩ : Heading).text ≠ "" :=
  c3_headings_pre_filter.2.1 c3Doc ⟨1, "Hidden"⟩ (by decide)

/-! ## C4: content selection -/

/-- Modelled from the spec: the claim's substring-based id/class matching
("an id containing `content` as a substring matches the content
pattern"), used only for the refinement comparison against the source's
`findMainContent`. -/
def matchesClaimPattern (p : String) (e : DNode) : Bool :=
  containsSub ((attrOf e "id").getD "").data p.data ||
    (splitWsL ((attrOf e "class").getD "").data).any
      (fun tok => containsSub tok p.data)

/-- Modelled from the spec: the claim's matcher list — the semantic
main-content tag, then ARIA `role=main`, then the id/class name patterns
content/main/post/entry/article with substring matching. -/
def claimMatchers : List (DNode → Bool) :=
  [fun e => tagOf e == "main", fun e => attrOf e "role" == some "main"] ++
    (["content", "main", "post", "entry", "article"].map
      (fun p e => matchesClaimPattern p e))

/-- Modelled from the spec: content selection as the claim words it —
first matcher with any match wins, first matching element in document
order, fallback to the body. -/
def findMainContentClaimed (doc : List DNode) : Option DNode :=
  match claimMatchers.findSome?
      (fun m => ((allElementsL doc).filter m).head?) with
  | some e => some e
  | none => ((allElementsL doc).filter (fun e => tagOf e == "body")).head?

/-- C4 counterexample: on a document whose only candidate has an id that
merely contains `content` as a substring, the source selector returns the
body while the claim's substring matching would return the div — id
matching in the code is exact (`#content`), not substring-based. -/
theorem c4_counterexample_substring_id :
    (findMainContent c4Doc).map tagOf = some "body" ∧
    (findMainContentClaimed c4Doc).map tagOf = some "div" ∧
    (("body" : String) == "div") = false := by
  refine ⟨by decide, by decide, by decide⟩

/-- C4 as amended: `findMainContent` evaluates the fixed ordered selector
list; the first selector with any match wins and yields the first
matching element in document order (with exact id matching and class
token matching as embodied in `matchesSel`); when no selector matches it
returns the first body element. -/
theorem c4_first_matcher_wins :
    (∀ (doc : List DNode) (l1 l2 : List Sel) (sel : Sel) (e : DNode),
      mainSelectors = l1 ++ sel :: l2 →
      (∀ s ∈ l1, ∀ x ∈ allElementsL doc, matchesSel s x = false) →
      ((allElementsL doc).filter (fun x => matchesSel sel x)).head? = some e →
      findMainContent doc = some e) ∧
    (∀ doc : List DNode,
      (∀ s ∈ mainSelectors, ∀ x ∈ allElementsL doc, matchesSel s x = false) →
      findMainContent doc =
        ((allElementsL doc).filter (fun x => tagOf x == "body")).head?) := by
  constructor
  · intro doc l1 l2 sel e hsplit hnone hhit
    unfold findMainContent
    rw [hsplit, List.findSome?_append]
    have h1 : l1.findSome?
        (fun s => ((allElementsL doc).filter (fun x => matchesSel s x)).head?) = none := by
      rw [List.findSome?_eq_none_iff]
      intro s hs
      have hfil : (allElementsL doc).filter (fun x => matchesSel s x) = [] := by
        rw [List.filter_eq_nil_iff]
        intro a ha
        simp [hnone s hs a ha]
      rw [hfil]
      rfl
    rw [h1, Option.none_or, List.findSome?_cons, hhit]
  · intro doc hall
    unfold findMainContent
    have h1 : mainSelectors.findSome?
        (fun s => ((allElementsL doc).filter (fun x => matchesSel s x)).head?) = none := by
      rw [List.findSome?_eq_none_iff]
      intro s hs
      have hfil : (allElementsL doc).filter (fun x => matchesSel s x) = [] := by
        rw [List.filter_eq_nil_iff]
        intro a ha
        simp [hall s hs a ha]
      rw [hfil]
      rfl
    rw [h1]

/-- Witness for the amended C4 on a concrete `role=main` document. -/
theorem c4_first_matcher_wins_witness :
    findMainContent c4WitnessDoc =
      some (DNode.elem "div" [("role", "main")] [DNode.text "M"]) :=
  c4_first_matcher_wins.1 c4WitnessDoc
    [Sel.tag "main", Sel.tag "article"]
    [Sel.idIs "content", Sel.idIs "main", Sel.idIs "main-content",
     Sel.cls "content", Sel.cls "main", Sel.cls "main-content",
     Sel.cls "post", Sel.cls "article", Sel.cls "entry",
     Sel.cls "entry-content", Sel.cls "post-content", Sel.cls "article-content"]
    (Sel.attrEq "role" "main")
    (DNode.elem "div" [("role", "main")] [DNode.text "M"])
    rfl (by decide) rfl

/-! ## C5: the author fallback chain -/

/-- A `creator` string field of a parsed JSON-LD block. -/
def creatorStr (j : Json) : Option String :=
  match jsField j "creator" with
  | some (.str c) => some c
  | _ => none

/-- The per-block step of the source's JSON-LD author loop: author
string, else the name of an author object, else a creator string, all
within the same block. -/
def authorBlockStep (j : Json) : Option String :=
  if isJsObject j then
    match jsField j "author" with
    | some (.str s) => some s
    | some a =>
      (if isJsObject a then
        match jsField a "name" with
        | some (.str n) => some n
        | _ => none
      else none).or (creatorStr j)
    | none => creatorStr j
  else none

/-- The `a[rel="author"]` link-text fallback of `extractAuthor`. -/
def relAuthorLinkText (doc : List DNode) : Option String :=
  if trimS (firstText doc
      (fun e => tagOf e == "a" && attrOf e "rel" == some "author")) = ""
  then none
  else some (trimS (firstText doc
      (fun e => tagOf e == "a" && attrOf e "rel" == some "author")))

/-- Modelled from the spec: the claim's author chain, in which all parsed
JSON-LD blocks are scanned for an author field before any block's creator
string is consulted.  Used only for the refinement comparison. -/
def authorClaimed (doc : List DNode) (metaTags : List (String × String))
    (jsonLd : List Json) : Option String :=
  (jsGetTag metaTags "author").or
    ((jsGetTag metaTags "article:author").or
      ((jsonLd.findSome? (fun j =>
          if isJsObject j then
            match jsField j "author" with
            | some (.str s) => some s
            | some a =>
              if isJsObject a then
                match jsField a "name" with
                | some (.str n) => some n
                | _ => none
              else none
            | none => none
          else none)).or
        ((jsonLd.findSome? (fun j =>
            if isJsObject j then creatorStr j else none)).or
          (relAuthorLinkText doc))))

/-- C5 counterexample: with an earlier creator-only block and a later
author-bearing block, the source returns the creator value while the
claim's chain demands the author value. -/
theorem c5_counterexample_creator_first :
    extractAuthor [] [] c5JsonLd = some "Carol" ∧
    authorClaimed [] [] c5JsonLd = some "Alice" ∧
    (("Carol" : String) == "Alice") = false := by
  refine ⟨by decide, by decide, by decide⟩

theorem extractAuthorLoop_step (j : Json) (rest : List Json) :
    extractAuthorLoop (j :: rest) =
      (authorBlockStep j).or (extractAuthorLoop rest) := by
  rw [extractAuthorLoop, authorBlockStep]
  by_cases hobj : isJsObject j = true
  · rw [if_pos hobj, if_pos hobj]
    rcases ha : jsField j "author" with _ | a
    · rcases hc : jsField j "creator" with _ | c
      · simp [creatorStr, hc]
      · cases c <;> simp [creatorStr, hc]
    · cases a with
      | str s => rfl
      | null =>
        rcases hc : jsField j "creator" with _ | c
        · simp [isJsObject, creatorStr, hc]
        · cases c <;> simp [isJsObject, creatorStr, hc]
      | bool b =>
        rcases hc : jsField j "creator" with _ | c
        · simp [isJsObject, creatorStr, hc]
        · cases c <;> simp [isJsObject, creatorStr, hc]
      | num n =>
        rcases hc : jsField j "creator" with _ | c
        · simp [isJsObject, creatorStr, hc]
        · cases c <;> simp [isJsObject, creatorStr, hc]
      | arr xs =>
        have hn : jsField (Json.arr xs) "name" = none := rfl
        rcases hc : jsField j "creator" with _ | c
        · simp [isJsObject, hn, creatorStr, hc]
        · cases c <;> simp [isJsObject, hn, creatorStr, hc]
      | obj fs =>
        rcases hn : jsField (Json.obj fs) "name" with _ | n
        · rcases hc : jsField j "creator" with _ | c
          · simp [isJsObject, hn, creatorStr, hc]
          · cases c <;> simp [isJsObject, hn, creatorStr, hc]
        · cases n with
          | str s => simp [isJsObject, hn]
          | null =>
            rcases hc : jsField j "creator" with _ | c
            · simp [isJsObject, hn, creatorStr, hc]
            · cases c <;> simp [isJsObject, hn, creatorStr, hc]
          | bool b =>
            rcases hc : jsField j "creator" with _ | c
            · simp [isJsObject, hn, creatorStr, hc]
            · cases c <;> simp [isJsObject, hn, creatorStr, hc]
          | num m =>
            rcases hc : jsField j "creator" with _ | c
            · simp [isJsObject, hn, creatorStr, hc]
            · cases c <;> simp [isJsObject, hn, creatorStr, hc]
          | arr ys =>
            rcases hc : jsField j "creator" with _ | c
            · simp [isJsObject, hn, creatorStr, hc]
            · cases c <;> simp [isJsObject, hn, creatorStr, hc]
          | obj gs =>
            rcases hc : jsField j "creator" with _ | c
            · simp [isJsObject, hn, creatorStr, hc]
            · cases c <;> simp [isJsObject, hn, creatorStr, hc]
  · rw [if_neg hobj, if_neg hobj]
    exact Option.none_or.symm

theorem extractAuthorLoop_eq_findSome (jsonLd : List Json) :
    extractAuthorLoop jsonLd = jsonLd.findSome? authorBlockStep := by
  induction jsonLd with
  | nil => rfl
  | cons j rest ih =>
    rw [extractAuthorLoop_step, List.findSome?_cons, ih]
    cases authorBlockStep j <;> rfl

/-- C5 as amended: `extractAuthor` is the chain meta author, else meta
article:author, else a single in-order scan of the parsed JSON-LD blocks
where each block tries author string, author-object name, then creator
string (so an earlier block's creator wins over a later block's author),
else the first `a[rel=author]` link text. -/
theorem c5_author_chain_per_block :
    ∀ (doc : List DNode) (metaTags : List (String × String)) (jsonLd : List Json),
      extractAuthor doc metaTags jsonLd =
        (jsGetTag metaTags "author").or
          ((jsGetTag metaTags "article:author").or
            ((jsonLd.findSome? authorBlockStep).or (relAuthorLinkText doc))) := by
  intro doc metaTags jsonLd
  unfold extractAuthor
  cases h1 : jsGetTag metaTags "author"
  · rw [Option.none_or]
    cases h2 : jsGetTag metaTags "article:author"
    · rw [Option.none_or, ← extractAuthorLoop_eq_findSome]
      cases h3 : extractAuthorLoop jsonLd
      · rw [Option.none_or]
        rfl
      · rfl
    · rfl
  · rfl

end WE
